import Mathlib

/-!
Shallow embedding of the CI/CD automation scripts in `.github/scripts/`
(assign-size-label.py, assign-labels.py, auto-merge.py, check-metadata.py,
slack-notify.py, stale-pr-checker.py), together with theorems settling the
specification claims about them.

Conventions used throughout:
* Python dictionaries are embedded as association lists in insertion order;
  `List.lookup` (first match) models dictionary lookup, which agrees with
  Python semantics because dictionary keys are unique.
* Python sets of strings are embedded as `Finset String`.
* Machine integers fit in `Nat`/`Int`; changed-line counts are `Nat`,
  timestamps are `Int` seconds.
* An unset environment variable is `none : Option String`; Python's
  truthiness test `not v` on such a value is `falsyEnv`.
* HTTP responses are inputs to the embedded functions: a fallible call is an
  `Except Unit α` (error = non-2xx, which `raise_for_status` turns into an
  uncaught exception), and the check-runs poll is driven by an oracle
  `Nat → Option (List CheckRun)` giving the outcome of each fetch attempt
  (`none` = non-200 status).
-/

/-! ## assign-size-label.py -/

/-- Upper bound of a size bucket: a finite bound or `float("inf")`. -/
inductive SizeBound where
  | fin (n : Nat)
  | inf
deriving DecidableEq

/-- `changed_lines <= max_lines`, where `max_lines` may be `float("inf")`. -/
def SizeBound.leBound (x : Nat) : SizeBound → Bool
  | .fin n => x ≤ n
  | .inf => true

/-- The `size_labels` table of assign-size-label.py, in insertion order:
label ↦ ((min, max), color). -/
def size_labels : List (String × (Nat × SizeBound) × String) :=
  [ ("XS", ((0, .fin 20), "388E3C")),
    ("S", ((20, .fin 50), "4CAF50")),
    ("M", ((50, .fin 100), "FFEB3B")),
    ("L", ((100, .fin 500), "FF9800")),
    ("XL", ((500, .fin 1000), "F44336")),
    ("XXL", ((1000, .inf), "B71C1C")) ]

/-- Iteration of `determine_size_label` over the (ordered) table: return the
first label whose range satisfies `min_lines <= changed_lines <= max_lines`. -/
def determineSizeAux (changed_lines : Nat) :
    List (String × (Nat × SizeBound) × String) → Option String
  | [] => none
  | (label, (min_lines, max_lines), _) :: rest =>
    if min_lines ≤ changed_lines ∧ (max_lines.leBound changed_lines) = true then
      some label
    else determineSizeAux changed_lines rest

/-- `determine_size_label` from assign-size-label.py. -/
def determine_size_label (changed_lines : Nat) : Option String :=
  determineSizeAux changed_lines size_labels

/-! ## auto-merge.py -/

/-- Python truthiness failure of an environment variable: `not v` is true when
the variable is unset (`None`) or the empty string. -/
def falsyEnv : Option String → Bool
  | none => true
  | some s => s.isEmpty

/-- Process exit code of `main()` in auto-merge.py, as a function of the two
environment variables and the three HTTP interactions it may perform
(labels fetch, reviews fetch, merge).  A missing repository or PR number
prints a message and returns normally, so the process exits 0; an HTTP error
(`raise_for_status`) propagates as an uncaught exception, exiting 1. -/
def autoMergeMain (repo pr_number : Option String)
    (labelsResp : Except Unit (List String))
    (approvedResp : Except Unit Bool)
    (mergeResp : Except Unit Unit) : Nat :=
  if falsyEnv repo || falsyEnv pr_number then 0
  else
    match labelsResp with
    | .error _ => 1
    | .ok labels =>
      if labels.contains "no-auto-merge" then 0
      else
        match approvedResp with
        | .error _ => 1
        | .ok approved =>
          if !approved then 0
          else
            match mergeResp with
            | .error _ => 1
            | .ok _ => 0

/-! ## stale-pr-checker.py: configuration validation -/

/-- Process exit code of `main()` in stale-pr-checker.py as a function of the
required environment variables: `GitHubPRMonitor.__init__` raises `ValueError`
when `not all([github_token, repo])`, which `main` catches and turns into
`sys.exit(1)`; otherwise `process_pull_requests` runs (`processOk` abstracts
whether it completes without a `requests.RequestException`, which would also
`sys.exit(1)`). -/
def staleCheckerMainExit (github_token repo : Option String)
    (processOk : Bool) : Nat :=
  if falsyEnv github_token || falsyEnv repo then 1
  else if processOk then 0 else 1

/-! ## check-metadata.py: Slack mapping load -/

/-- The Slack-mapping load step of check-metadata.py.  The input describes the
file `.github/slack-mapping.json`: `none` = missing (`FileNotFoundError`),
`some (.error ())` = present but invalid JSON (`json.JSONDecodeError`),
`some (.ok m)` = parsed mapping.  Both failure branches `exit(1)`. -/
def checkMetadataLoadMapping (file : Option (Except Unit (List (String × String)))) :
    Except Nat (List (String × String)) :=
  match file with
  | none => .error 1
  | some (.error _) => .error 1
  | some (.ok m) => .ok m

/-! ## Claim theorems for C1 and C2 -/

/-- C1: The claim says counts 0, 19, 20, 49, 50, 999, 1000 map to labels
XS, XS, S, S, M, XL, XXL under half-open non-overlapping ranges.  The code's
guard `min_lines <= changed_lines <= max_lines` is closed at the upper end, so
the shared boundary values fall into the lower bucket: 20 ↦ XS (claim: S),
50 ↦ S (claim: M) and 1000 ↦ XL (claim: XXL).  This theorem evaluates the
embedded code at all seven inputs, exhibiting the divergence. -/
theorem C1_size_bucketing_code_eval :
    determine_size_label 0 = some "XS" ∧
    determine_size_label 19 = some "XS" ∧
    determine_size_label 20 = some "XS" ∧
    determine_size_label 49 = some "S" ∧
    determine_size_label 50 = some "S" ∧
    determine_size_label 999 = some "XL" ∧
    determine_size_label 1000 = some "XL" := by
  refine ⟨?_, ?_, ?_, ?_, ?_, ?_, ?_⟩ <;> decide

/-- C2 counterexample: the claim says every script exits non-zero on missing
required configuration, in particular the auto-merger when GITHUB_REPOSITORY
is unset.  At the concrete input where GITHUB_REPOSITORY is unset (and every
HTTP interaction would succeed), auto-merge.py's `main` prints a message and
returns normally: the exit code is 0. -/
theorem C2_auto_merge_exits_zero :
    autoMergeMain none (some "5") (Except.ok []) (Except.ok true)
      (Except.ok ()) = 0 := by
  decide

/-- C2 amended: missing required configuration is fatal (non-zero exit) in the
stale-PR checker (GITHUB_TOKEN or REPO unset) and in the metadata checker
(Slack mapping file missing), but the auto-merger exits 0 when
GITHUB_REPOSITORY or PR_NUMBER is unset. -/
theorem C2_missing_config_exit_codes :
    (∀ (github_token repo : Option String) (processOk : Bool),
      (falsyEnv github_token || falsyEnv repo) = true →
      staleCheckerMainExit github_token repo processOk ≠ 0) ∧
    checkMetadataLoadMapping none = Except.error 1 ∧
    (∀ (pr_number : Option String) labelsResp approvedResp mergeResp,
      autoMergeMain none pr_number labelsResp approvedResp mergeResp = 0) ∧
    (∀ (repo : Option String) labelsResp approvedResp mergeResp,
      autoMergeMain repo none labelsResp approvedResp mergeResp = 0) := by
  refine ⟨?_, rfl, ?_, ?_⟩
  · intro t r p h
    simp [staleCheckerMainExit, h]
  · intro pn l a m
    simp [autoMergeMain, falsyEnv]
  · intro r l a m
    simp [autoMergeMain, falsyEnv]

/-- Witness for C2's amended theorem at concrete inputs. -/
theorem C2_missing_config_exit_codes_witness :
    staleCheckerMainExit none (some "o/r") true ≠ 0 ∧
    autoMergeMain none (some "5") (Except.ok []) (Except.ok true)
      (Except.ok ()) = 0 :=
  ⟨C2_missing_config_exit_codes.1 none (some "o/r") true (by decide),
   C2_missing_config_exit_codes.2.2.1 (some "5") (Except.ok [])
     (Except.ok true) (Except.ok ())⟩

/-! ## assign-labels.py -/

/-- A value of the `filter.yml` dictionary: either a list of glob patterns or
a single pattern string (the `isinstance(patterns, list)` distinction). -/
inductive PatternValue where
  | list (ps : List String)
  | single (p : String)

/-- `get_label_for_file` from assign-labels.py, parametric in the glob
matcher `fnm` (Python's `fnmatch.fnmatch`): return the first label of the
(ordered) filter table one of whose patterns matches the file. -/
def get_label_for_file (fnm : String → String → Bool) (file : String) :
    List (String × PatternValue) → Option String
  | [] => none
  | (label, .list ps) :: rest =>
    if ps.any (fun pattern => fnm file pattern) then some label
    else get_label_for_file fnm file rest
  | (label, .single p) :: rest =>
    if fnm file p then some label
    else get_label_for_file fnm file rest

/-- Python's `s.split("/")`, as structural recursion over the characters
(`cur` accumulates the current segment in reverse). -/
def splitSlashAux : List Char → List Char → List String
  | [], cur => [String.mk cur.reverse]
  | c :: cs, cur =>
    if c == '/' then String.mk cur.reverse :: splitSlashAux cs []
    else splitSlashAux cs (c :: cur)

/-- Python's `file.split("/")`. -/
def splitSlash (file : String) : List String :=
  splitSlashAux file.data []

/-- Python's `"/".join(parts)`. -/
def joinSlash : List String → String
  | [] => ""
  | [s] => s
  | s :: rest => s ++ "/" ++ joinSlash rest

/-- The candidate path truncations scanned by assign-labels.py: for
`i in range(len(parts), 0, -1)`, the join `"/".join(parts[:i])` of the first
`i` slash-separated segments, from most to least specific. -/
def pathCandidates (file : String) : List String :=
  let parts := splitSlash file
  (List.range parts.length).reverse.map
    (fun k => joinSlash (parts.take (k + 1)))

/-- The CODEOWNERS step of `process_files` for one file: the first (most
specific) truncation of the path that is in `valid_labels`. -/
def codeownersLabel (file : String) (valid_labels : List String) :
    Option String :=
  (pathCandidates file).find? (fun p => valid_labels.contains p)

/-- Loop body of `process_files`, with the accumulated label set: a
filters.yml hit replaces the accumulator with a singleton and returns at
once; otherwise the CODEOWNERS match (if any) is added and the loop
continues. -/
def processFilesGo (fnm : String → String → Bool)
    (valid_labels : List String) (filter_data : List (String × PatternValue)) :
    List String → Finset String → Finset String
  | [], labels => labels
  | file :: rest, labels =>
    match get_label_for_file fnm file filter_data with
    | some special_label => {special_label}
    | none =>
      match codeownersLabel file valid_labels with
      | some possible_label =>
        processFilesGo fnm valid_labels filter_data rest
          (insert possible_label labels)
      | none => processFilesGo fnm valid_labels filter_data rest labels

/-- `process_files` from assign-labels.py. -/
def process_files (fnm : String → String → Bool) (changed_files : List String)
    (valid_labels : List String) (filter_data : List (String × PatternValue)) :
    Finset String :=
  processFilesGo fnm valid_labels filter_data changed_files ∅

/-- The label of the first changed file (in order) that hits the filters.yml
table; `none` when no changed file matches any glob pattern. -/
def firstFilterHit (fnm : String → String → Bool)
    (filter_data : List (String × PatternValue)) :
    List String → Option String
  | [] => none
  | file :: rest =>
    match get_label_for_file fnm file filter_data with
    | some l => some l
    | none => firstFilterHit fnm filter_data rest

/-- Python's `str.lstrip("@")`: drop every leading `'@'`. -/
def stripAt (s : String) : String :=
  String.mk (s.data.dropWhile (fun c => c == '@'))

/-- `set(assignee.lstrip("@") for assignee in l)`. -/
def assigneeSet (l : List String) : Finset String :=
  (l.map stripAt).toFinset

/-- `get_assignees_for_path` from assign-labels.py: exact dictionary match,
then the most specific matching path truncation, then the wildcard `"*"`
entry, else the empty set. -/
def get_assignees_for_path (file_path : String)
    (assignees_map : List (String × List String)) : Finset String :=
  match List.lookup file_path assignees_map with
  | some assignees => assigneeSet assignees
  | none =>
    match (pathCandidates file_path).findSome?
        (fun p => List.lookup p assignees_map) with
    | some assignees => assigneeSet assignees
    | none =>
      match List.lookup "*" assignees_map with
      | some assignees => assigneeSet assignees
      | none => ∅

/-- The intersection loop of `find_common_assignees`, with the early `break`
once the running intersection is empty. -/
def intersectLoop (assignees_map : List (String × List String)) :
    Finset String → List String → Finset String
  | common, [] => common
  | common, file :: rest =>
    let common' := common ∩ get_assignees_for_path file assignees_map
    if common' = ∅ then common'
    else intersectLoop assignees_map common' rest

/-- The fallback union of `find_common_assignees`: every assignee appearing
anywhere among the mapping's values, `lstrip("@")`-ed. -/
def allAssignees (assignees_map : List (String × List String)) :
    Finset String :=
  assignees_map.foldl (fun acc entry => acc ∪ assigneeSet entry.2) ∅

/-- `find_common_assignees` from assign-labels.py. -/
def find_common_assignees (changed_files : List String)
    (assignees_map : List (String × List String)) : Finset String :=
  match changed_files with
  | [] => ∅
  | file :: rest =>
    let common := intersectLoop assignees_map
      (get_assignees_for_path file assignees_map) rest
    if common = ∅ then
      let all := allAssignees assignees_map
      if all ≠ ∅ then all else common
    else common

/-! ## Claim theorems for C3, C4, C5 and C10 -/

/-- Helper: once some file yields a filters.yml hit, the loop returns its
singleton regardless of the accumulated CODEOWNERS labels. -/
theorem processFilesGo_firstFilterHit (fnm : String → String → Bool)
    (valid_labels : List String) (filter_data : List (String × PatternValue))
    (files : List String) (acc : Finset String) (l : String)
    (h : firstFilterHit fnm filter_data files = some l) :
    processFilesGo fnm valid_labels filter_data files acc = {l} := by
  induction files generalizing acc with
  | nil => simp [firstFilterHit] at h
  | cons file rest ih =>
    unfold firstFilterHit at h
    unfold processFilesGo
    cases hfile : get_label_for_file fnm file filter_data with
    | some special_label =>
      rw [hfile] at h
      simp only [hfile]
      simpa using h
    | none =>
      rw [hfile] at h
      simp only [hfile]
      cases codeownersLabel file valid_labels with
      | some possible_label => exact ih _ h
      | none => exact ih _ h

/-- Helper: if no file yields a filters.yml hit, `firstFilterHit` is `none`;
contrapositive of membership. -/
theorem firstFilterHit_isSome (fnm : String → String → Bool)
    (filter_data : List (String × PatternValue)) (files : List String)
    (file : String) (hmem : file ∈ files)
    (hhit : (get_label_for_file fnm file filter_data).isSome = true) :
    (firstFilterHit fnm filter_data files).isSome = true := by
  induction files with
  | nil => simp at hmem
  | cons f rest ih =>
    unfold firstFilterHit
    cases hf : get_label_for_file fnm f filter_data with
    | some l => simp
    | none =>
      simp only [Option.isSome]
      rcases List.mem_cons.mp hmem with heq | hmem'
      · subst heq
        rw [hf] at hhit
        simp at hhit
      · exact ih hmem'

/-- C3: label resolution priority.  If any changed file matches a glob
pattern of the filters table then `process_files` returns exactly the
singleton of the first matching filter label — independently of
`valid_labels`, so CODEOWNERS labels collected from earlier files are
discarded and a filter match always wins over any CODEOWNERS path match. -/
theorem C3_filter_match_wins (fnm : String → String → Bool)
    (changed_files : List String) (valid_labels : List String)
    (filter_data : List (String × PatternValue)) :
    (∀ l, firstFilterHit fnm filter_data changed_files = some l →
      process_files fnm changed_files valid_labels filter_data = {l}) ∧
    (∀ file ∈ changed_files,
      (get_label_for_file fnm file filter_data).isSome = true →
      (firstFilterHit fnm filter_data changed_files).isSome = true) := by
  constructor
  · intro l h
    exact processFilesGo_firstFilterHit fnm valid_labels filter_data
      changed_files ∅ l h
  · intro file hmem hhit
    exact firstFilterHit_isSome fnm filter_data changed_files file hmem hhit

/-- Witness for C3 at concrete inputs: the second changed file matches the
glob table (modelled here with literal-equality matching), and the result is
the singleton of its label even though the first file collected a CODEOWNERS
label. -/
theorem C3_filter_match_wins_witness :
    process_files (fun f p => f == p) ["docs/readme.md", "app/main.py"]
      ["docs"] [("backend", PatternValue.single "app/main.py")] =
      {"backend"} :=
  (C3_filter_match_wins (fun f p => f == p) ["docs/readme.md", "app/main.py"]
    ["docs"] [("backend", PatternValue.single "app/main.py")]).1
    "backend" (by decide)

/-- The mathematical intersection of the per-file assignee sets of a
non-empty file list, folded left as the loop does. -/
def interAssignees (changed_files : List String)
    (assignees_map : List (String × List String)) : Finset String :=
  match changed_files with
  | [] => ∅
  | file :: rest =>
    rest.foldl (fun a g => a ∩ get_assignees_for_path g assignees_map)
      (get_assignees_for_path file assignees_map)

/-- Folding intersection from the empty set stays empty. -/
theorem foldl_inter_empty (assignees_map : List (String × List String))
    (files : List String) :
    files.foldl (fun a g => a ∩ get_assignees_for_path g assignees_map) ∅ =
      ∅ := by
  induction files with
  | nil => rfl
  | cons f rest ih => simpa using ih

/-- Unfolding equation of `intersectLoop` on a cons cell. -/
theorem intersectLoop_cons (assignees_map : List (String × List String))
    (acc : Finset String) (f : String) (rest : List String) :
    intersectLoop assignees_map acc (f :: rest) =
      (if acc ∩ get_assignees_for_path f assignees_map = ∅ then
        acc ∩ get_assignees_for_path f assignees_map
       else intersectLoop assignees_map
        (acc ∩ get_assignees_for_path f assignees_map) rest) :=
  rfl

/-- The early-`break` loop computes the same set as the plain fold. -/
theorem intersectLoop_eq_foldl (assignees_map : List (String × List String))
    (acc : Finset String) (files : List String) :
    intersectLoop assignees_map acc files =
      files.foldl (fun a g => a ∩ get_assignees_for_path g assignees_map)
        acc := by
  induction files generalizing acc with
  | nil => rfl
  | cons f rest ih =>
    rw [List.foldl_cons, ← ih, intersectLoop_cons]
    by_cases h : acc ∩ get_assignees_for_path f assignees_map = ∅
    · rw [if_pos h, h, ih, foldl_inter_empty]
    · rw [if_neg h]

/-- Membership in the folded intersection. -/
theorem mem_foldl_inter (assignees_map : List (String × List String))
    (files : List String) (init : Finset String) (x : String) :
    x ∈ files.foldl (fun a g => a ∩ get_assignees_for_path g assignees_map)
        init ↔
      x ∈ init ∧ ∀ g ∈ files, x ∈ get_assignees_for_path g assignees_map := by
  induction files generalizing init with
  | nil => simp
  | cons f rest ih =>
    simp only [List.foldl_cons, ih, Finset.mem_inter, List.mem_cons]
    constructor
    · rintro ⟨⟨hx, hf⟩, hrest⟩
      refine ⟨hx, ?_⟩
      rintro g (rfl | hg)
      · exact hf
      · exact hrest g hg
    · rintro ⟨hx, hall⟩
      exact ⟨⟨hx, hall f (Or.inl rfl)⟩, fun g hg => hall g (Or.inr hg)⟩

/-- C4: assignee aggregation.  For a non-empty list of changed files,
`find_common_assignees` returns the intersection of the per-file assignee
sets when that intersection is non-empty; when it is empty it returns the
union of all assignees appearing anywhere in the ownership mapping, provided
that union is non-empty.  The last conjunct identifies `interAssignees` with
the pointwise intersection of the per-file sets. -/
theorem C4_assignee_aggregation (file : String) (rest : List String)
    (assignees_map : List (String × List String)) :
    (interAssignees (file :: rest) assignees_map ≠ ∅ →
      find_common_assignees (file :: rest) assignees_map =
        interAssignees (file :: rest) assignees_map) ∧
    (interAssignees (file :: rest) assignees_map = ∅ →
      allAssignees assignees_map ≠ ∅ →
      find_common_assignees (file :: rest) assignees_map =
        allAssignees assignees_map) ∧
    (∀ x, x ∈ interAssignees (file :: rest) assignees_map ↔
      ∀ g ∈ file :: rest, x ∈ get_assignees_for_path g assignees_map) := by
  have hcons : find_common_assignees (file :: rest) assignees_map =
      (if intersectLoop assignees_map
          (get_assignees_for_path file assignees_map) rest = ∅ then
        (if allAssignees assignees_map ≠ ∅ then allAssignees assignees_map
         else intersectLoop assignees_map
          (get_assignees_for_path file assignees_map) rest)
       else intersectLoop assignees_map
        (get_assignees_for_path file assignees_map) rest) := rfl
  have hloop : intersectLoop assignees_map
      (get_assignees_for_path file assignees_map) rest =
      interAssignees (file :: rest) assignees_map :=
    intersectLoop_eq_foldl assignees_map _ rest
  refine ⟨?_, ?_, ?_⟩
  · intro hne
    rw [hcons, hloop, if_neg hne]
  · intro hempty hall
    rw [hcons, hloop, if_pos hempty, if_pos hall]
  · intro x
    have hx : x ∈ interAssignees (file :: rest) assignees_map ↔
        x ∈ get_assignees_for_path file assignees_map ∧
          ∀ g ∈ rest, x ∈ get_assignees_for_path g assignees_map :=
      mem_foldl_inter assignees_map rest _ x
    rw [hx]
    constructor
    · rintro ⟨hfile, hrest⟩ g hg
      rcases List.mem_cons.mp hg with rfl | hg'
      · exact hfile
      · exact hrest g hg'
    · intro hall
      exact ⟨hall file (List.mem_cons_self _ _),
        fun g hg => hall g (List.mem_cons_of_mem _ hg)⟩

/-- Witness for C4 at concrete inputs: files owned by {A,B} and {B,C} yield
the intersection; owner-disjoint files fall back to the union of every
assignee in the mapping, including one (`Z`) owning no changed file. -/
theorem C4_assignee_aggregation_witness :
    find_common_assignees ["x", "y"]
        [("x", ["@A", "@B"]), ("y", ["@B", "@C"])] =
      interAssignees ["x", "y"]
        [("x", ["@A", "@B"]), ("y", ["@B", "@C"])] ∧
    find_common_assignees ["x", "y"]
        [("x", ["@A"]), ("y", ["@B"]), ("z", ["@Z"])] =
      allAssignees [("x", ["@A"]), ("y", ["@B"]), ("z", ["@Z"])] :=
  ⟨(C4_assignee_aggregation "x" ["y"]
      [("x", ["@A", "@B"]), ("y", ["@B", "@C"])]).1 (by decide),
   (C4_assignee_aggregation "x" ["y"]
      [("x", ["@A"]), ("y", ["@B"]), ("z", ["@Z"])]).2.1
      (by decide) (by decide)⟩

/-- C10: for the empty list of changed files, `find_common_assignees`
returns the empty set for every ownership mapping — the
union-of-all-known-assignees fallback is never consulted, even when the
mapping is non-empty. -/
theorem C10_empty_changed_files (assignees_map : List (String × List String)) :
    find_common_assignees [] assignees_map = ∅ :=
  rfl

/-- Helper: `findSome?` skips a block of elements on which the function is
`none`. -/
theorem findSome?_append_of_none {α β : Type} (f : α → Option β)
    (l₁ l₂ : List α) (h : ∀ a ∈ l₁, f a = none) :
    (l₁ ++ l₂).findSome? f = l₂.findSome? f := by
  induction l₁ with
  | nil => rfl
  | cons a rest ih =>
    rw [List.cons_append, List.findSome?_cons]
    rw [h a (List.mem_cons_self _ _)]
    exact ih (fun b hb => h b (List.mem_cons_of_mem _ hb))

/-- Helper: `findSome?` is `none` on a list all of whose elements map to
`none`. -/
theorem findSome?_eq_none_of_forall {α β : Type} (f : α → Option β)
    (l : List α) (h : ∀ a ∈ l, f a = none) : l.findSome? f = none := by
  induction l with
  | nil => rfl
  | cons a rest ih =>
    rw [List.findSome?_cons, h a (List.mem_cons_self _ _)]
    exact ih (fun b hb => h b (List.mem_cons_of_mem _ hb))

/-- C5: per-file owner resolution order.  `get_assignees_for_path` returns
(1) the assignees of an exact path match when one exists; otherwise (2) the
assignees of the most specific matching path truncation — the first entry of
`pathCandidates` (ordered longest first) found in the mapping; otherwise
(3) the assignees of the wildcard `"*"` entry when present; otherwise (4) the
empty set. -/
theorem C5_owner_resolution_order (file_path : String)
    (assignees_map : List (String × List String)) :
    (∀ assignees, List.lookup file_path assignees_map = some assignees →
      get_assignees_for_path file_path assignees_map =
        assigneeSet assignees) ∧
    (∀ longer p rest assignees,
      List.lookup file_path assignees_map = none →
      pathCandidates file_path = longer ++ p :: rest →
      (∀ q ∈ longer, List.lookup q assignees_map = none) →
      List.lookup p assignees_map = some assignees →
      get_assignees_for_path file_path assignees_map =
        assigneeSet assignees) ∧
    (∀ assignees, List.lookup file_path assignees_map = none →
      (∀ q ∈ pathCandidates file_path,
        List.lookup q assignees_map = none) →
      List.lookup "*" assignees_map = some assignees →
      get_assignees_for_path file_path assignees_map =
        assigneeSet assignees) ∧
    (List.lookup file_path assignees_map = none →
      (∀ q ∈ pathCandidates file_path,
        List.lookup q assignees_map = none) →
      List.lookup "*" assignees_map = none →
      get_assignees_for_path file_path assignees_map = ∅) := by
  refine ⟨?_, ?_, ?_, ?_⟩
  · intro assignees hexact
    unfold get_assignees_for_path
    rw [hexact]
  · intro longer p rest assignees hexact hsplit hlonger hp
    unfold get_assignees_for_path
    rw [hexact, hsplit,
      findSome?_append_of_none _ longer _ hlonger,
      List.findSome?_cons, hp]
  · intro assignees hexact hnone hstar
    unfold get_assignees_for_path
    rw [hexact,
      findSome?_eq_none_of_forall _ _ hnone, hstar]
  · intro hexact hnone hstar
    unfold get_assignees_for_path
    rw [hexact,
      findSome?_eq_none_of_forall _ _ hnone, hstar]

/-- Witness for C5 at concrete inputs exercising all four resolution steps:
an exact file match, a directory-truncation match, the wildcard entry, and
the empty default. -/
theorem C5_owner_resolution_order_witness :
    get_assignees_for_path "a/b/c.txt"
        [("a/b/c.txt", ["@E"]), ("a/b", ["@P"]), ("*", ["@W"])] =
      assigneeSet ["@E"] ∧
    get_assignees_for_path "a/b/x.txt"
        [("a/b/c.txt", ["@E"]), ("a/b", ["@P"]), ("*", ["@W"])] =
      assigneeSet ["@P"] ∧
    get_assignees_for_path "q.txt"
        [("a/b/c.txt", ["@E"]), ("a/b", ["@P"]), ("*", ["@W"])] =
      assigneeSet ["@W"] ∧
    get_assignees_for_path "q.txt" [("a", ["@A"])] = ∅ :=
  ⟨(C5_owner_resolution_order "a/b/c.txt"
      [("a/b/c.txt", ["@E"]), ("a/b", ["@P"]), ("*", ["@W"])]).1
      ["@E"] (by decide),
   (C5_owner_resolution_order "a/b/x.txt"
      [("a/b/c.txt", ["@E"]), ("a/b", ["@P"]), ("*", ["@W"])]).2.1
      ["a/b/x.txt"] "a/b" ["a"] ["@P"] (by decide) (by decide)
      (by decide) (by decide),
   (C5_owner_resolution_order "q.txt"
      [("a/b/c.txt", ["@E"]), ("a/b", ["@P"]), ("*", ["@W"])]).2.2.1
      ["@W"] (by decide) (by decide) (by decide),
   (C5_owner_resolution_order "q.txt" [("a", ["@A"])]).2.2.2
      (by decide) (by decide) (by decide)⟩

/-! ## stale-pr-checker.py: stale detection -/

/-- A pull request as fetched by stale-pr-checker.py (`created_at` in Unix
seconds UTC). -/
structure PRData where
  number : Nat
  creator : String
  url : String
  createdAt : Int
  labels : List String
deriving DecidableEq

/-- `(now - created_at).days`: age in whole days; `timedelta.days` floors
toward negative infinity, which is `Int.fdiv`. -/
def ageDays (now createdAt : Int) : Int :=
  Int.fdiv (now - createdAt) 86400

/-- The skip condition of `process_pull_requests`:
`"stale" in labels or age < self.stale_days`. -/
def staleSkip (now staleDays : Int) (pr : PRData) : Bool :=
  pr.labels.contains "stale" || ageDays now pr.createdAt < staleDays

/-- `process_pull_requests` from stale-pr-checker.py, restricted to its pure
selection logic: the sublist of fetched open PRs that get notified (comment,
`stale` label, and optional Slack message). -/
def process_pull_requests (now staleDays : Int) (prs : List PRData) :
    List PRData :=
  prs.filter (fun pr => !staleSkip now staleDays pr)

/-- The GitHub-side effect of `notify_pr`: the labels POST adds the `stale`
label to the pull request, so a later fetch sees it among the PR's labels. -/
def notifyPrEffect (pr : PRData) : PRData :=
  { pr with labels := pr.labels ++ ["stale"] }

/-! ## Claim theorems for C6 and C7 -/

/-- C6: stale-detection boundary.  An open PR without the `stale` label is
notified iff its whole-day age is at least `stale_days`; one created exactly
`stale_days` ago is included and one created one day later
(age `stale_days - 1`) is excluded. -/
theorem C6_stale_boundary (now staleDays : Int) (prs : List PRData)
    (pr : PRData) (hmem : pr ∈ prs)
    (hlabel : pr.labels.contains "stale" = false) :
    (pr ∈ process_pull_requests now staleDays prs ↔
      staleDays ≤ ageDays now pr.createdAt) ∧
    (pr.createdAt = now - staleDays * 86400 →
      pr ∈ process_pull_requests now staleDays prs) ∧
    (pr.createdAt = now - (staleDays - 1) * 86400 →
      pr ∉ process_pull_requests now staleDays prs) := by
  have hmain : pr ∈ process_pull_requests now staleDays prs ↔
      staleDays ≤ ageDays now pr.createdAt := by
    unfold process_pull_requests
    rw [List.mem_filter]
    simp only [staleSkip, hlabel, Bool.false_or, Bool.not_eq_true',
      decide_eq_false_iff_not, not_lt]
    exact ⟨fun h => h.2, fun h => ⟨hmem, h⟩⟩
  refine ⟨hmain, ?_, ?_⟩
  · intro hcreated
    rw [hmain]
    have : ageDays now pr.createdAt = staleDays := by
      unfold ageDays
      rw [hcreated]
      have h1 : now - (now - staleDays * 86400) = staleDays * 86400 := by ring
      rw [h1]
      exact Int.mul_fdiv_cancel staleDays (by norm_num)
    omega
  · intro hcreated
    rw [hmain]
    have : ageDays now pr.createdAt = staleDays - 1 := by
      unfold ageDays
      rw [hcreated]
      have h1 : now - (now - (staleDays - 1) * 86400) =
          (staleDays - 1) * 86400 := by ring
      rw [h1]
      exact Int.mul_fdiv_cancel (staleDays - 1) (by norm_num)
    omega

/-- Witness for C6 at concrete inputs: threshold 3 days, one PR created
exactly 3 days ago (notified) and the same check for a PR created 2 days
ago (excluded). -/
theorem C6_stale_boundary_witness :
    (⟨7, "alice", "u", 1000000 - 259200, []⟩ : PRData) ∈
      process_pull_requests 1000000 3
        [⟨7, "alice", "u", 1000000 - 259200, []⟩] ∧
    (⟨8, "bob", "v", 1000000 - 172800, []⟩ : PRData) ∉
      process_pull_requests 1000000 3
        [⟨8, "bob", "v", 1000000 - 172800, []⟩] :=
  ⟨(C6_stale_boundary 1000000 3 [⟨7, "alice", "u", 1000000 - 259200, []⟩]
      ⟨7, "alice", "u", 1000000 - 259200, []⟩ (by decide) (by decide)).2.1
      (by decide),
   (C6_stale_boundary 1000000 3 [⟨8, "bob", "v", 1000000 - 172800, []⟩]
      ⟨8, "bob", "v", 1000000 - 172800, []⟩ (by decide) (by decide)).2.2
      (by decide)⟩

/-- C7: stale-checker idempotence.  A PR already carrying the `stale` label
is never in the notified sublist of any run; `notify_pr`'s label POST adds
`stale` to the PR, so a PR notified by one run is skipped by every later run
(no duplicate comment, label or Slack message). -/
theorem C7_stale_idempotence (now now' staleDays staleDays' : Int)
    (prs prs' : List PRData) (pr : PRData) :
    (pr.labels.contains "stale" = true →
      pr ∉ process_pull_requests now staleDays prs) ∧
    (notifyPrEffect pr).labels.contains "stale" = true ∧
    notifyPrEffect pr ∉ process_pull_requests now' staleDays' prs' := by
  have hskip : ∀ (n d : Int) (q : PRData), q.labels.contains "stale" = true →
      ∀ (l : List PRData), q ∉ process_pull_requests n d l := by
    intro n d q hq l hmem
    rw [process_pull_requests, List.mem_filter] at hmem
    have := hmem.2
    rw [staleSkip, hq] at this
    simp at this
  have heff : (notifyPrEffect pr).labels.contains "stale" = true := by
    rw [notifyPrEffect]
    simp
  exact ⟨fun h => hskip now staleDays pr h prs, heff,
    hskip now' staleDays' (notifyPrEffect pr) heff prs'⟩

/-- Witness for C7 at concrete inputs: a labeled PR is skipped, and the PR
produced by notifying an unlabeled one is skipped by a second run. -/
theorem C7_stale_idempotence_witness :
    (⟨7, "alice", "u", 0, ["stale"]⟩ : PRData) ∉
      process_pull_requests 1000000 3 [⟨7, "alice", "u", 0, ["stale"]⟩] ∧
    notifyPrEffect ⟨9, "carol", "w", 0, ["bug"]⟩ ∉
      process_pull_requests 2000000 3
        [notifyPrEffect ⟨9, "carol", "w", 0, ["bug"]⟩] :=
  ⟨(C7_stale_idempotence 1000000 1000000 3 3
      [⟨7, "alice", "u", 0, ["stale"]⟩] []
      ⟨7, "alice", "u", 0, ["stale"]⟩).1 (by decide),
   (C7_stale_idempotence 1000000 2000000 3 3 []
      [notifyPrEffect ⟨9, "carol", "w", 0, ["bug"]⟩]
      ⟨9, "carol", "w", 0, ["bug"]⟩).2.2⟩

/-! ## slack-notify.py: check-completion poller -/

/-- A check run as returned by the check-runs endpoint. -/
structure CheckRun where
  name : String
  status : String
  conclusion : String
deriving DecidableEq

/-- `load_required_workflows` from slack-notify.py.  The input describes
`.github/workflows.json`: `none` = file missing, `some none` = present but
invalid JSON, `some (some ws)` = parsed with `required_workflows` list `ws`.
Both failure branches print a warning and return the empty list. -/
def load_required_workflows (file : Option (Option (List String))) :
    List String :=
  match file with
  | none => []
  | some none => []
  | some (some workflows) => workflows

/-- The dictionary `{workflow: False for workflow in REQUIRED_WORKFLOWS}`
(duplicate names collapse to one key, keeping first insertion order). -/
def initWorkflows (required : List String) : List (String × Bool) :=
  required.eraseDups.map (fun w => (w, false))

/-- `workflows[name] = True`: update the entry with the given key. -/
def setWorkflowTrue (ws : List (String × Bool)) (name : String) :
    List (String × Bool) :=
  ws.map (fun e => if e.1 == name then (e.1, true) else e)

/-- One pass of the inner `for check in check_runs` loop: mark a required
workflow completed-successfully when a check run with its name has
`status == "completed"` and `conclusion == "success"`. -/
def applyCheckRuns (required : List String) (ws : List (String × Bool)) :
    List CheckRun → List (String × Bool) :=
  List.foldl
    (fun ws check =>
      if required.contains check.name && check.status == "completed" &&
          check.conclusion == "success" then
        setWorkflowTrue ws check.name
      else ws) ws

/-- `all(workflows.values())` after processing one check-runs response. -/
def allRequiredOk (required : List String) (runs : List CheckRun) : Bool :=
  (applyCheckRuns required (initWorkflows required) runs).all (fun e => e.2)

/-- Whether one fetch attempt observes success: the fetch returned HTTP 200
(`some runs`) and every required workflow is completed successfully. -/
def attemptSuccess (required : List String)
    (fetch : Nat → Option (List CheckRun)) (i : Nat) : Bool :=
  match fetch i with
  | none => false
  | some runs => allRequiredOk required runs

/-- The `while retries < max_retries` loop of `check_actions_finished`,
structurally recursing on the remaining retries.  Returns the boolean result
paired with the total seconds slept: a failed fetch (non-200) and an
incomplete 200 response both `time.sleep(30)` before retrying; a successful
attempt returns `True` immediately. -/
def pollLoop (required : List String)
    (fetch : Nat → Option (List CheckRun)) : Nat → Nat → Bool × Nat
  | _, 0 => (false, 0)
  | attempt, fuel + 1 =>
    match fetch attempt with
    | none =>
      let r := pollLoop required fetch (attempt + 1) fuel
      (r.1, r.2 + 30)
    | some runs =>
      if allRequiredOk required runs then (true, 0)
      else
        let r := pollLoop required fetch (attempt + 1) fuel
        (r.1, r.2 + 30)

/-- `check_actions_finished` from slack-notify.py: `max_retries = 120`
attempts starting from the first. -/
def check_actions_finished (required : List String)
    (fetch : Nat → Option (List CheckRun)) : Bool × Nat :=
  pollLoop required fetch 0 120

/-- Unfolding equation of `pollLoop` when the fetch fails (non-200). -/
theorem pollLoop_succ_none (required : List String)
    (fetch : Nat → Option (List CheckRun)) (a n : Nat)
    (hf : fetch a = none) :
    pollLoop required fetch a (n + 1) =
      ((pollLoop required fetch (a + 1) n).1,
       (pollLoop required fetch (a + 1) n).2 + 30) := by
  conv_lhs => rw [pollLoop]
  rw [hf]

/-- Unfolding equation of `pollLoop` on an HTTP-200 fetch. -/
theorem pollLoop_succ_some (required : List String)
    (fetch : Nat → Option (List CheckRun)) (a n : Nat)
    (runs : List CheckRun) (hf : fetch a = some runs) :
    pollLoop required fetch a (n + 1) =
      (if allRequiredOk required runs then (true, 0)
       else ((pollLoop required fetch (a + 1) n).1,
             (pollLoop required fetch (a + 1) n).2 + 30)) := by
  conv_lhs => rw [pollLoop]
  rw [hf]

/-- Helper: when no attempt in the window succeeds, the loop exhausts its
fuel, returns `false`, and sleeps 30 seconds per attempt. -/
theorem pollLoop_all_fail (required : List String)
    (fetch : Nat → Option (List CheckRun)) (fuel a : Nat)
    (h : ∀ j, a ≤ j → j < a + fuel →
      attemptSuccess required fetch j = false) :
    pollLoop required fetch a fuel = (false, 30 * fuel) := by
  induction fuel generalizing a with
  | zero => rfl
  | succ n ih =>
    have ha : attemptSuccess required fetch a = false :=
      h a le_rfl (by omega)
    have hrec : pollLoop required fetch (a + 1) n = (false, 30 * n) :=
      ih (a + 1) (fun j hj1 hj2 => h j (by omega) (by omega))
    cases hf : fetch a with
    | none =>
      rw [pollLoop_succ_none required fetch a n hf, hrec]
      simp [Nat.mul_succ]
    | some runs =>
      have ha' : allRequiredOk required runs = false := by
        unfold attemptSuccess at ha
        rw [hf] at ha
        exact ha
      rw [pollLoop_succ_some required fetch a n runs hf,
        if_neg (by simp [ha']), hrec]
      simp [Nat.mul_succ]

/-- Helper: the loop returns `true` at the first successful attempt, having
slept 30 seconds for each preceding failed attempt. -/
theorem pollLoop_first_success (required : List String)
    (fetch : Nat → Option (List CheckRun)) (fuel a i : Nat)
    (hai : a ≤ i) (hlt : i < a + fuel)
    (hsucc : attemptSuccess required fetch i = true)
    (hmin : ∀ j, a ≤ j → j < i → attemptSuccess required fetch j = false) :
    pollLoop required fetch a fuel = (true, 30 * (i - a)) := by
  induction fuel generalizing a with
  | zero => omega
  | succ n ih =>
    by_cases hia : i = a
    · subst hia
      cases hf : fetch i with
      | none =>
        unfold attemptSuccess at hsucc
        rw [hf] at hsucc
        exact absurd hsucc (by simp)
      | some runs =>
        have hok : allRequiredOk required runs = true := by
          unfold attemptSuccess at hsucc
          rw [hf] at hsucc
          exact hsucc
        rw [pollLoop_succ_some required fetch i n runs hf, if_pos hok]
        simp
    · have hai' : a + 1 ≤ i := by omega
      have ha : attemptSuccess required fetch a = false :=
        hmin a le_rfl (by omega)
      have hrec : pollLoop required fetch (a + 1) n =
          (true, 30 * (i - (a + 1))) :=
        ih (a + 1) hai' (by omega)
          (fun j hj1 hj2 => hmin j (by omega) hj2)
      cases hf : fetch a with
      | none =>
        rw [pollLoop_succ_none required fetch a n hf, hrec]
        simp only [Prod.mk.injEq, true_and]
        omega
      | some runs =>
        have ha' : allRequiredOk required runs = false := by
          unfold attemptSuccess at ha
          rw [hf] at ha
          exact ha
        rw [pollLoop_succ_some required fetch a n runs hf,
          if_neg (by simp [ha']), hrec]
        simp only [Prod.mk.injEq, true_and]
        omega

/-- C8: poller contract.  `check_actions_finished` makes at most 120 fetch
attempts with a fixed 30-second sleep after each unsuccessful one: it
returns `True` at the first attempt `i < 120` on which every required
workflow is completed successfully (having slept `30*i` seconds), and
returns `False` after the retry cap is exhausted (120 attempts, 3600
seconds slept) — so it always terminates with a boolean determined by the
first 120 attempts. -/
theorem C8_poller_contract (required : List String)
    (fetch : Nat → Option (List CheckRun)) :
    (∀ i, i < 120 → attemptSuccess required fetch i = true →
      (∀ j, j < i → attemptSuccess required fetch j = false) →
      check_actions_finished required fetch = (true, 30 * i)) ∧
    ((∀ j, j < 120 → attemptSuccess required fetch j = false) →
      check_actions_finished required fetch = (false, 3600)) := by
  constructor
  · intro i hi hsucc hmin
    unfold check_actions_finished
    have := pollLoop_first_success required fetch 120 0 i (Nat.zero_le i)
      (by omega) hsucc (fun j hj1 hj2 => hmin j hj2)
    simpa using this
  · intro hfail
    unfold check_actions_finished
    have := pollLoop_all_fail required fetch 120 0
      (fun j hj1 hj2 => hfail j (by omega))
    simpa using this

/-- Witness for C8 at concrete inputs: with one required workflow, a fetch
oracle failing twice then showing success yields `(true, 60)`; an oracle
that never shows success yields `(false, 3600)`. -/
theorem C8_poller_contract_witness :
    check_actions_finished ["build"]
        (fun i => if i = 2 then
          some [⟨"build", "completed", "success"⟩] else none) =
      (true, 60) ∧
    check_actions_finished ["build"] (fun _ => none) = (false, 3600) :=
  ⟨(C8_poller_contract ["build"]
      (fun i => if i = 2 then
        some [⟨"build", "completed", "success"⟩] else none)).1
      2 (by decide) (by decide) (by decide),
   (C8_poller_contract ["build"] (fun _ => none)).2 (fun j hj => rfl)⟩

/-- Helper: with no required workflows, the inner check-run loop never
updates anything. -/
theorem applyCheckRuns_nil_required (ws : List (String × Bool))
    (runs : List CheckRun) : applyCheckRuns [] ws runs = ws := by
  induction runs with
  | nil => rfl
  | cons c rest ih => exact ih

/-- Helper: `all({}.values())` is `True`: an empty required-workflow list
makes every HTTP-200 response count as success. -/
theorem allRequiredOk_nil (runs : List CheckRun) :
    allRequiredOk [] runs = true := by
  unfold allRequiredOk
  rw [applyCheckRuns_nil_required]
  rfl

/-- C9: vacuous poller success.  When the required-workflow list is empty —
as `load_required_workflows` returns when workflows.json is missing or holds
invalid JSON — `check_actions_finished` returns `True` on the first fetch
attempt that returns HTTP 200, regardless of the states of the check runs in
the response. -/
theorem C9_vacuous_poller_success :
    load_required_workflows none = [] ∧
    load_required_workflows (some none) = [] ∧
    (∀ (fetch : Nat → Option (List CheckRun)) (i : Nat)
        (runs : List CheckRun), i < 120 →
      (∀ j, j < i → fetch j = none) → fetch i = some runs →
      check_actions_finished [] fetch = (true, 30 * i)) := by
  refine ⟨rfl, rfl, ?_⟩
  intro fetch i runs hi hnone hfi
  have hsucc : attemptSuccess [] fetch i = true := by
    unfold attemptSuccess
    rw [hfi]
    exact allRequiredOk_nil runs
  have hmin : ∀ j, 0 ≤ j → j < i → attemptSuccess [] fetch j = false := by
    intro j _ hj
    unfold attemptSuccess
    rw [hnone j hj]
  have := pollLoop_first_success [] fetch 120 0 i (Nat.zero_le i)
    (by omega) hsucc hmin
  simpa using this

/-- Witness for C9 at a concrete input: the very first fetch returns 200
with a single still-queued check run, and the poller succeeds at once. -/
theorem C9_vacuous_poller_success_witness :
    check_actions_finished []
      (fun i => if i = 0 then some [⟨"x", "queued", ""⟩] else none) =
      (true, 0) :=
  C9_vacuous_poller_success.2.2
    (fun i => if i = 0 then some [⟨"x", "queued", ""⟩] else none)
    0 [⟨"x", "queued", ""⟩] (by decide) (fun j hj => absurd hj (by omega))
    rfl
